import Mathlib

/-!
Shallow embedding of the VideoVault repository's job-orchestration backend
(`src/backend/api.ts`, a Cloudflare Worker) and of the client helpers in
`src/lib/api.ts`.  Pure TypeScript functions become Lean functions; the
mutable `downloadStatuses` table becomes an association list threaded through
the handlers; the three `setTimeout` callbacks scheduled by the download
route become an explicit list of pending updates, returned by the handler
and applied in their scheduled order (1000 ms, 2000 ms, 3000 ms).
-/

namespace VideoVault

/-! ### Character classes and base-36 rendering (`generateDownloadId`) -/

/-- JavaScript digit rendering for `Number.prototype.toString(36)`:
digit values `0`–`9` map to `'0'`–`'9'`, values `10`–`35` to `'a'`–`'z'`. -/
def toBase36Digit (n : Nat) : Char :=
  if n < 10 then Char.ofNat (48 + n) else Char.ofNat (87 + n)

/-- Base-36 digit values of `n`, least significant first; `fuel` bounds the
recursion (callers pass `n` itself, which suffices since `n / 36 < n`). -/
def base36Digits (fuel n : Nat) : List Nat :=
  match fuel with
  | 0 => []
  | fuel + 1 => if n = 0 then [] else n % 36 :: base36Digits fuel (n / 36)

/-- `Number.prototype.toString(36)` on a natural number, as used for
`Date.now().toString(36)`. -/
def natToBase36 (n : Nat) : String :=
  if n = 0 then "0"
  else String.mk (((base36Digits n n).reverse).map toBase36Digit)

/-- Characters `[a-z0-9_]`: the alphabet of ids built by
`generateDownloadId` (the prefix `dl_` plus base-36 digits). -/
def isIdChar (c : Char) : Bool :=
  (97 ≤ c.toNat && c.toNat ≤ 122) || (48 ≤ c.toNat && c.toNat ≤ 57) || c.toNat == 95

/-- Characters `[a-zA-Z0-9_]`: the class in the status route's regex
`^\/api\/download\/([a-zA-Z0-9_]+)$`. -/
def isRouteChar (c : Char) : Bool :=
  (97 ≤ c.toNat && c.toNat ≤ 122) || (65 ≤ c.toNat && c.toNat ≤ 90) ||
    (48 ≤ c.toNat && c.toNat ≤ 57) || c.toNat == 95

/-- `generateDownloadId`: `'dl_' + Math.random().toString(36).substr(2, 9) +
Date.now().toString(36)`.  The random fraction is modelled by its base-36
digit values (`randDigits`, of which `substr(2, 9)` keeps at most nine) and
the clock by `now : Nat`. -/
def generateDownloadId (randDigits : List Nat) (now : Nat) : String :=
  "dl_" ++ String.mk ((randDigits.take 9).map toBase36Digit) ++ natToBase36 now

/-! ### A small matching kernel for the platform regexes

Each regex in `platformPatterns` is translated into a continuation-style
matcher over `List Char`.  `scanFrom p cs` is `RegExp.prototype.test`:
the pattern may start at any position of the subject. -/

/-- Match the literal characters `lit`, then continue with `k`. -/
def litThen (lit : List Char) (k : List Char → Bool) : List Char → Bool :=
  fun cs =>
    match lit, cs with
    | [], rest => k rest
    | _ :: _, [] => false
    | a :: as, c :: cs' => a == c && litThen as k cs'

/-- Match zero or more characters of class `cls`, then continue with `k`
(tries every split, i.e. full backtracking). -/
def manyThen (cls : Char → Bool) (k : List Char → Bool) : List Char → Bool
  | [] => k []
  | c :: cs => k (c :: cs) || (cls c && manyThen cls k cs)

/-- Match one or more characters of class `cls`, then continue with `k`. -/
def many1Then (cls : Char → Bool) (k : List Char → Bool) : List Char → Bool
  | [] => false
  | c :: cs => cls c && manyThen cls k cs

/-- Match exactly `n` characters of class `cls`, then continue with `k`. -/
def repThen (n : Nat) (cls : Char → Bool) (k : List Char → Bool) : List Char → Bool :=
  fun cs =>
    match n, cs with
    | 0, rest => k rest
    | _ + 1, [] => false
    | n + 1, c :: cs' => cls c && repThen n cls k cs'

/-- Unanchored test: does the pattern `p` match starting at some position? -/
def scanFrom (p : List Char → Bool) : List Char → Bool
  | [] => p []
  | c :: cs => p (c :: cs) || scanFrom p cs

/-- Run an unanchored pattern against a string, as `pattern.test(url)`. -/
def testPat (p : List Char → Bool) (url : String) : Bool :=
  scanFrom p url.data

/-- `[a-zA-Z0-9_-]`, the video-id class of the YouTube and Instagram rules. -/
def isDashWordChar (c : Char) : Bool := isRouteChar c || c.toNat == 45

/-- `\w`, i.e. `[a-zA-Z0-9_]`. -/
def isWordChar (c : Char) : Bool := isRouteChar c

/-- `\d`. -/
def isDigitChar (c : Char) : Bool := 48 ≤ c.toNat && c.toNat ≤ 57

/-- `.` in a JavaScript regex: any character except a line terminator. -/
def isDotChar (c : Char) : Bool := !(c == Char.ofNat 10) && !(c == Char.ofNat 13)

/-! ### `platformPatterns` and `detectPlatform` -/

/-- `/(?:youtube\.com\/watch\?v=|youtu\.be\/)([a-zA-Z0-9_-]{11})/` -/
def youtubeTest (url : String) : Bool :=
  testPat (fun cs =>
    litThen "youtube.com/watch?v=".data (repThen 11 isDashWordChar (fun _ => true)) cs ||
    litThen "youtu.be/".data (repThen 11 isDashWordChar (fun _ => true)) cs) url

/-- `/tiktok\.com\/@[^/]+\/video\/(\d+)/` -/
def tiktokTest (url : String) : Bool :=
  testPat (litThen "tiktok.com/@".data
    (many1Then (fun c => !(c == '/'))
      (litThen "/video/".data (many1Then isDigitChar (fun _ => true))))) url

/-- `/instagram\.com\/(p|reel)\/([a-zA-Z0-9_-]+)/` -/
def instagramTest (url : String) : Bool :=
  testPat (litThen "instagram.com/".data (fun cs =>
    litThen "p/".data (many1Then isDashWordChar (fun _ => true)) cs ||
    litThen "reel/".data (many1Then isDashWordChar (fun _ => true)) cs)) url

/-- `/(?:twitter\.com|x\.com)\/\w+\/status\/(\d+)/` -/
def twitterTest (url : String) : Bool :=
  testPat (fun cs =>
    litThen "twitter.com/".data
      (many1Then isWordChar
        (litThen "/status/".data (many1Then isDigitChar (fun _ => true)))) cs ||
    litThen "x.com/".data
      (many1Then isWordChar
        (litThen "/status/".data (many1Then isDigitChar (fun _ => true)))) cs) url

/-- `/vimeo\.com\/(\d+)/` -/
def vimeoTest (url : String) : Bool :=
  testPat (litThen "vimeo.com/".data (many1Then isDigitChar (fun _ => true))) url

/-- `/facebook\.com\/.*\/videos\/(\d+)/` -/
def facebookTest (url : String) : Bool :=
  testPat (litThen "facebook.com/".data
    (manyThen isDotChar
      (litThen "/videos/".data (many1Then isDigitChar (fun _ => true))))) url

/-- `/twitch\.tv\/videos\/(\d+)/` -/
def twitchTest (url : String) : Bool :=
  testPat (litThen "twitch.tv/videos/".data (many1Then isDigitChar (fun _ => true))) url

/-- `detectPlatform`: first matching rule, in the insertion order of
`platformPatterns`, with the platform name capitalised; `'Unknown'` if no
rule matches. -/
def detectPlatform (url : String) : String :=
  if youtubeTest url then "Youtube"
  else if tiktokTest url then "Tiktok"
  else if instagramTest url then "Instagram"
  else if twitterTest url then "Twitter"
  else if vimeoTest url then "Vimeo"
  else if facebookTest url then "Facebook"
  else if twitchTest url then "Twitch"
  else "Unknown"

/-- `extractVideoId(url) !== null`: some pattern of `platformPatterns`
matches (each rule has one mandatory capture group, so a match always
yields a video id). -/
def videoIdPresent (url : String) : Bool :=
  youtubeTest url || tiktokTest url || instagramTest url || twitterTest url ||
    vimeoTest url || facebookTest url || twitchTest url

/-! ### Data model of the worker (`src/backend/api.ts`) -/

/-- The `status` literal union of the backend's `DownloadStatus` interface:
`'processing' | 'completed' | 'error' | 'queued'`.  Note the backend type has
no `'expired'` member. -/
inductive JobState where
  | queued
  | processing
  | completed
  | error
deriving DecidableEq

/-- The wire string for each `JobState` literal. -/
def statusName : JobState → String
  | .queued => "queued"
  | .processing => "processing"
  | .completed => "completed"
  | .error => "error"

/-- The backend `DownloadStatus` record. -/
structure DownloadStatus where
  id : String
  status : JobState
  progress : Nat
  downloadUrl : Option String
  errorMsg : Option String
  createdAt : String
  completedAt : Option String
deriving DecidableEq

/-- The backend `DownloadRequest` body; a missing field is the empty string
(both are falsy in the `!body.url || !body.format || !body.quality` check). -/
structure DownloadRequest where
  url : String
  format : String
  quality : String
deriving DecidableEq

/-- The module-level `downloadStatuses` table, as an association list keyed
by job id; the most recent binding for a key shadows older ones. -/
def Store := List (String × DownloadStatus)

instance : DecidableEq Store := inferInstanceAs (DecidableEq (List _))

/-- Read `downloadStatuses[id]`. -/
def Store.read (s : Store) (id : String) : Option DownloadStatus :=
  List.lookup id s

/-- The three mutations scheduled by `setTimeout` in the download route:
at 1000 ms set `processing`/25, at 2000 ms set `processing`/75, at 3000 ms
set `completed`/100 with `completedAt` and `downloadUrl`. -/
inductive Upd where
  | progress25 (id : String)
  | progress75 (id : String)
  | complete (id : String) (format : String) (doneAt : String)
deriving DecidableEq

/-- Apply one scheduled callback.  Each callback first checks
`if (downloadStatuses[downloadId])` and does nothing when the record is
gone. -/
def applyUpd : Upd → Store → Store
  | .progress25 id, s =>
    match s.read id with
    | some r => (id, { r with status := .processing, progress := 25 }) :: s
    | none => s
  | .progress75 id, s =>
    match s.read id with
    | some r => (id, { r with status := .processing, progress := 75 }) :: s
    | none => s
  | .complete id fmt doneAt, s =>
    match s.read id with
    | some r =>
      (id, { r with status := .completed, progress := 100,
                    completedAt := some doneAt,
                    downloadUrl := some ("/files/" ++ id ++ "." ++ fmt) }) :: s
    | none => s

/-- Apply a list of scheduled callbacks in order. -/
def runUpds (us : List Upd) (s : Store) : Store :=
  us.foldl (fun s u => applyUpd u s) s

/-! ### The worker's router (`export default { fetch }`) -/

inductive Method where
  | GET
  | POST
  | PUT
  | DELETE
  | OPTIONS
deriving DecidableEq

/-- Response payloads produced by the router (the JSON bodies).  Routes whose
payload no claim depends on (`/api/health`, `/api/video-info`,
`/api/supported-platforms`) carry an opaque marker. -/
inductive Payload where
  | empty
  | health
  | videoInfo
  | platforms
  | downloadCreated (downloadId : String) (status : DownloadStatus)
  | jobStatus (status : DownloadStatus)
  | errMsg (msg : String)
  | notFound (path : String)
deriving DecidableEq

structure Response where
  code : Nat
  payload : Payload
deriving DecidableEq

/-- `url.pathname.match(/^\/api\/download\/([a-zA-Z0-9_]+)$/)`: the anchored
regex matches exactly the paths `/api/download/<rest>` with `<rest>` a
non-empty run of `[a-zA-Z0-9_]`, capturing `<rest>`. -/
def routeMatch (path : String) : Option String :=
  let pre := "/api/download/".data
  let cs := path.data
  if pre.isPrefixOf cs then
    let rest := cs.drop pre.length
    if !rest.isEmpty && rest.all isRouteChar then some (String.mk rest) else none
  else none

/-- The worker's `fetch` handler.  Inputs beyond the request: the current
`downloadStatuses` table, the id `generateDownloadId` would produce
(`freshId`), the submission clock reading (`now`, for `createdAt`) and the
clock reading at the 3000 ms callback (`doneAt`, for `completedAt`).
Output: the HTTP response, the table after the synchronous part of the
handler, and the callbacks the handler scheduled (delay in ms, in firing
order) — returning before they run is exactly the non-blocking contract. -/
def workerFetch (method : Method) (path : String) (body : DownloadRequest)
    (store : Store) (freshId now doneAt : String) :
    Response × Store × List (Nat × Upd) :=
  if method = .OPTIONS then (⟨200, .empty⟩, store, [])
  else if path = "/api/health" ∧ method = .GET then (⟨200, .health⟩, store, [])
  else if path = "/api/video-info" ∧ method = .POST then
    if body.url = "" then (⟨400, .errMsg "URL is required"⟩, store, [])
    else if detectPlatform body.url = "Unknown" ∨ videoIdPresent body.url = false then
      (⟨400, .errMsg "Unsupported platform or invalid URL"⟩, store, [])
    else (⟨200, .videoInfo⟩, store, [])
  else if path = "/api/download" ∧ method = .POST then
    if body.url = "" ∨ body.format = "" ∨ body.quality = "" then
      (⟨400, .errMsg "URL, format, and quality are required"⟩, store, [])
    else if detectPlatform body.url = "Unknown" then
      (⟨400, .errMsg "Unsupported platform"⟩, store, [])
    else
      let rec0 : DownloadStatus :=
        ⟨freshId, .queued, 0, none, none, now, none⟩
      (⟨200, .downloadCreated freshId rec0⟩, (freshId, rec0) :: store,
        [(1000, .progress25 freshId), (2000, .progress75 freshId),
         (3000, .complete freshId body.format doneAt)])
  else
    match routeMatch path, method with
    | some id, .GET =>
      match store.read id with
      | none => (⟨404, .errMsg "Download not found"⟩, store, [])
      | some r => (⟨200, .jobStatus r⟩, store, [])
    | _, _ =>
      if path = "/api/supported-platforms" ∧ method = .GET then
        (⟨200, .platforms⟩, store, [])
      else (⟨404, .notFound path⟩, store, [])

/-- The table right after a successful `POST /api/download` (before any
scheduled callback has fired). -/
def submitStore (body : DownloadRequest) (store : Store) (freshId now doneAt : String) : Store :=
  (workerFetch .POST "/api/download" body store freshId now doneAt).2.1

/-- The callbacks scheduled by `POST /api/download`. -/
def submitPending (body : DownloadRequest) (store : Store) (freshId now doneAt : String) :
    List (Nat × Upd) :=
  (workerFetch .POST "/api/download" body store freshId now doneAt).2.2

/-- The store after the first `k` scheduled callbacks of a submission have
fired, in their scheduled order. -/
def jobTraj (body : DownloadRequest) (store : Store) (freshId now doneAt : String)
    (k : Nat) : Store :=
  runUpds (((submitPending body store freshId now doneAt).take k).map Prod.snd)
    (submitStore body store freshId now doneAt)

/-- The `progress` field a status read of job `id` observes in store `s`. -/
def progressOf (s : Store) (id : String) : Option Nat :=
  (s.read id).map (fun r => r.progress)

/-- The status string a status read of job `id` observes in store `s`. -/
def statusOf (s : Store) (id : String) : Option String :=
  (s.read id).map (fun r => statusName r.status)

/-- Terminal wire statuses, as tested by both the spec and the client:
`completed`, `error`, `expired`. -/
def isTerminalName (s : String) : Bool :=
  s == "completed" || s == "error" || s == "expired"

/-! ### Client helpers (`src/lib/api.ts`) -/

/-- The client-side `DownloadStatus` interface.  Its `status` union adds
`'expired'` to the backend's literals, so it is kept as a plain string. -/
structure ClientStatus where
  id : String
  status : String
  progress : Nat
  title : Option String
  fileSize : Option Nat
  downloadUrl : Option String
  errorMessage : Option String
  createdAt : String
  completedAt : Option String
  expiresAt : Option String
deriving DecidableEq

/-- The terminal test on line 203 of `src/lib/api.ts`:
`status.status === 'completed' || status.status === 'error' ||
status.status === 'expired'`. -/
def isTerminalC (s : ClientStatus) : Bool :=
  s.status == "completed" || s.status == "error" || s.status == "expired"

/-- Outcome of the promise returned by `pollDownloadStatus`: resolution with
a terminal status, rejection with the timeout `APIError`, or rejection with
the error thrown by a failing `getDownloadStatus` call. -/
inductive PollResult where
  | resolved (s : ClientStatus)
  | timedOut
  | failed (e : String)
deriving DecidableEq

/-- One run of the recursive `poll` closure, starting with `attempts` prior
attempts made.  `fetch i` is the result of the `(i+1)`-st
`api.getDownloadStatus` call.  Returns the list of statuses passed to
`onUpdate`, in call order, and the promise's outcome.  Mirrors the source:
increment `attempts`, await the read, call `onUpdate`, resolve on a terminal
status, reject with the timeout error once `attempts >= maxAttempts`,
otherwise schedule the next poll. -/
def pollAux (fetch : Nat → Except String ClientStatus) (maxAttempts : Nat) :
    (attempts : Nat) → List ClientStatus × PollResult :=
  fun attempts =>
    match fetch attempts with
    | .error e => ([], .failed e)
    | .ok s =>
      if isTerminalC s then ([s], .resolved s)
      else if _h : maxAttempts ≤ attempts + 1 then ([s], .timedOut)
      else
        let r := pollAux fetch maxAttempts (attempts + 1)
        (s :: r.1, r.2)
termination_by attempts => maxAttempts - attempts
decreasing_by omega

/-- `pollDownloadStatus(jobId, onUpdate, intervalMs, maxAttempts)`: the
polling interval only spaces the calls in time and cannot change the list of
reads or the outcome, so it is carried but unused. -/
def pollDownloadStatus (fetch : Nat → Except String ClientStatus)
    (intervalMs maxAttempts : Nat) : List ClientStatus × PollResult :=
  pollAux fetch maxAttempts 0

/-- The `supportedDomains` table of `isValidVideoUrl`. -/
def supportedDomains : List String :=
  ["youtube.com", "youtu.be", "tiktok.com", "instagram.com",
   "twitter.com", "x.com", "vimeo.com", "facebook.com",
   "twitch.tv", "dailymotion.com", "soundcloud.com", "reddit.com"]

/-- `String.prototype.includes`. -/
def jsIncludes (s sub : String) : Bool :=
  scanFrom (fun cs => sub.data.isPrefixOf cs) s.data

/-- `String.prototype.endsWith`. -/
def jsEndsWith (s suf : String) : Bool :=
  suf.data.isSuffixOf s.data

/-- `isValidVideoUrl`.  `new URL(url)` is modelled by a parsing oracle
`parseHost : String → Option String` returning the `hostname` when the URL
parses and `none` when the constructor throws; the `catch` branch turns
`none` into `false`.  The body is the source's
`supportedDomains.some(domain => hostname.includes(domain) ||
hostname.endsWith(domain))`. -/
def isValidVideoUrl (parseHost : String → Option String) (url : String) : Bool :=
  match parseHost url with
  | none => false
  | some hostname =>
    supportedDomains.any (fun domain =>
      jsIncludes hostname domain || jsEndsWith hostname domain)

/-! ### Helper lemmas -/

theorem strMk_data (s : String) : String.mk s.data = s := by
  cases s
  rfl

theorem read_cons_self (l : List (String × DownloadStatus)) (id : String) (r : DownloadStatus) :
    Store.read ((id, r) :: l) id = some r := by
  simp [Store.read, List.lookup]

theorem dlPath_ne_health (s : String) : "/api/download/" ++ s ≠ "/api/health" := by
  intro h
  have h2 : ("/api/download/" ++ s).data[5]? = "/api/health".data[5]? := by rw [h]
  rw [String.data_append, List.getElem?_append_left (by decide)] at h2
  exact absurd h2 (by decide)

theorem dlPath_ne_platforms (s : String) :
    "/api/download/" ++ s ≠ "/api/supported-platforms" := by
  intro h
  have h2 : ("/api/download/" ++ s).data[5]? = "/api/supported-platforms".data[5]? := by
    rw [h]
  rw [String.data_append, List.getElem?_append_left (by decide)] at h2
  exact absurd h2 (by decide)

theorem routeMatch_append (id : String) (hne : id.data ≠ [])
    (hall : id.data.all isRouteChar = true) :
    routeMatch ("/api/download/" ++ id) = some id := by
  unfold routeMatch
  rw [String.data_append]
  rw [if_pos (by rw [List.isPrefixOf_iff_prefix]; exact List.prefix_append _ _)]
  rw [List.drop_left]
  rw [if_pos (by simp [hall, List.isEmpty_iff, hne])]

theorem routeMatch_append_cases (id : String) :
    routeMatch ("/api/download/" ++ id) = some id ∨
      routeMatch ("/api/download/" ++ id) = none := by
  unfold routeMatch
  rw [String.data_append]
  rw [if_pos (by rw [List.isPrefixOf_iff_prefix]; exact List.prefix_append _ _)]
  rw [List.drop_left]
  by_cases h : (!id.data.isEmpty && id.data.all isRouteChar) = true
  · rw [if_pos h, strMk_data]
    exact Or.inl rfl
  · rw [if_neg h]
    exact Or.inr rfl

theorem routeMatch_file_none (id : String) :
    routeMatch ("/api/download/" ++ id ++ "/file") = none := by
  have hassoc : "/api/download/" ++ id ++ "/file" = "/api/download/" ++ (id ++ "/file") := by
    rw [String.ext_iff]
    simp [String.data_append, List.append_assoc]
  rw [hassoc]
  unfold routeMatch
  rw [String.data_append]
  rw [if_pos (by rw [List.isPrefixOf_iff_prefix]; exact List.prefix_append _ _)]
  rw [List.drop_left]
  rw [if_neg]
  intro h
  rw [Bool.and_eq_true, List.all_eq_true] at h
  have hmem : '/' ∈ (id ++ "/file").data := by
    rw [String.data_append]
    exact List.mem_append_right _ (by decide)
  exact absurd (h.2 _ hmem) (by decide)

/-! ### Evaluation lemmas for the router -/

theorem submit_eval (body : DownloadRequest) (store : Store) (freshId now doneAt : String)
    (h1 : body.url ≠ "") (h2 : body.format ≠ "") (h3 : body.quality ≠ "")
    (h4 : detectPlatform body.url ≠ "Unknown") :
    workerFetch .POST "/api/download" body store freshId now doneAt =
      (⟨200, .downloadCreated freshId ⟨freshId, .queued, 0, none, none, now, none⟩⟩,
       (freshId, ⟨freshId, .queued, 0, none, none, now, none⟩) :: store,
       [(1000, .progress25 freshId), (2000, .progress75 freshId),
        (3000, .complete freshId body.format doneAt)]) := by
  unfold workerFetch
  rw [if_neg (by decide : ¬ (Method.POST = Method.OPTIONS))]
  rw [if_neg (by intro h; exact absurd h.1 (by decide))]
  rw [if_neg (by intro h; exact absurd h.1 (by decide))]
  rw [if_pos ⟨rfl, rfl⟩]
  rw [if_neg (by intro h; exact h.elim h1 (fun h => h.elim h2 h3))]
  rw [if_neg h4]

theorem get_status_eval (id : String) (body : DownloadRequest) (store : Store)
    (freshId now doneAt : String) (hm : routeMatch ("/api/download/" ++ id) = some id) :
    workerFetch .GET ("/api/download/" ++ id) body store freshId now doneAt =
      (match store.read id with
       | none => (⟨404, .errMsg "Download not found"⟩, store, [])
       | some r => (⟨200, .jobStatus r⟩, store, [])) := by
  unfold workerFetch
  rw [if_neg (by decide : ¬ (Method.GET = Method.OPTIONS))]
  rw [if_neg (by intro h; exact dlPath_ne_health id h.1)]
  rw [if_neg (by intro h; exact absurd h.2 (by decide))]
  rw [if_neg (by intro h; exact absurd h.2 (by decide))]
  rw [hm]

theorem workerFetch_delete (path : String) (body : DownloadRequest) (store : Store)
    (freshId now doneAt : String) :
    workerFetch .DELETE path body store freshId now doneAt =
      (⟨404, .notFound path⟩, store, []) := by
  unfold workerFetch
  rw [if_neg (by decide : ¬ (Method.DELETE = Method.OPTIONS))]
  rw [if_neg (by intro h; exact absurd h.2 (by decide))]
  rw [if_neg (by intro h; exact absurd h.2 (by decide))]
  rw [if_neg (by intro h; exact absurd h.2 (by decide))]
  have hplat : ¬ (path = "/api/supported-platforms" ∧ Method.DELETE = Method.GET) := by
    intro h
    exact absurd h.2 (by decide)
  cases hq : routeMatch path with
  | none => rw [if_neg hplat]
  | some a => rw [if_neg hplat]

/-! ### The lifecycle trajectory of one submitted job -/

theorem jobTraj_read (body : DownloadRequest) (store : Store) (freshId now doneAt : String)
    (h1 : body.url ≠ "") (h2 : body.format ≠ "") (h3 : body.quality ≠ "")
    (h4 : detectPlatform body.url ≠ "Unknown") :
    Store.read (jobTraj body store freshId now doneAt 0) freshId =
      some ⟨freshId, .queued, 0, none, none, now, none⟩ ∧
    Store.read (jobTraj body store freshId now doneAt 1) freshId =
      some ⟨freshId, .processing, 25, none, none, now, none⟩ ∧
    Store.read (jobTraj body store freshId now doneAt 2) freshId =
      some ⟨freshId, .processing, 75, none, none, now, none⟩ ∧
    Store.read (jobTraj body store freshId now doneAt 3) freshId =
      some ⟨freshId, .completed, 100, some ("/files/" ++ freshId ++ "." ++ body.format),
            none, now, some doneAt⟩ := by
  have hs := submit_eval body store freshId now doneAt h1 h2 h3 h4
  unfold jobTraj submitPending submitStore
  rw [hs]
  simp [runUpds, applyUpd, Store.read, List.lookup]

theorem jobTraj_ge3 (body : DownloadRequest) (store : Store) (freshId now doneAt : String)
    (h1 : body.url ≠ "") (h2 : body.format ≠ "") (h3 : body.quality ≠ "")
    (h4 : detectPlatform body.url ≠ "Unknown") :
    ∀ k, 3 ≤ k → jobTraj body store freshId now doneAt k = jobTraj body store freshId now doneAt 3 := by
  intro k hk
  have hs := submit_eval body store freshId now doneAt h1 h2 h3 h4
  unfold jobTraj submitPending submitStore
  rw [hs]
  rw [List.take_of_length_le (by simp; omega), List.take_of_length_le (by simp)]

/-! ### Character facts about generated ids -/

theorem toBase36Digit_isIdChar : ∀ dgt, dgt < 36 → isIdChar (toBase36Digit dgt) = true := by
  decide

theorem base36Digits_lt (fuel : Nat) : ∀ n dgt, dgt ∈ base36Digits fuel n → dgt < 36 := by
  induction fuel with
  | zero =>
    intro n dgt h
    simp [base36Digits] at h
  | succ fuel ih =>
    intro n dgt h
    rw [base36Digits] at h
    by_cases hn : n = 0
    · rw [if_pos hn] at h
      simp at h
    · rw [if_neg hn] at h
      rcases List.mem_cons.mp h with h | h
      · subst h
        exact Nat.mod_lt _ (by omega)
      · exact ih _ _ h

theorem natToBase36_chars (n : Nat) : ∀ c ∈ (natToBase36 n).data, isIdChar c = true := by
  intro c hc
  rw [natToBase36] at hc
  by_cases hn : n = 0
  · rw [if_pos hn] at hc
    rw [show ("0" : String).data = ['0'] from rfl] at hc
    simp at hc
    subst hc
    decide
  · rw [if_neg hn] at hc
    rw [show (String.mk (((base36Digits n n).reverse).map toBase36Digit)).data =
        ((base36Digits n n).reverse).map toBase36Digit from rfl] at hc
    obtain ⟨dgt, hmem, hEq⟩ := List.mem_map.mp hc
    subst hEq
    exact toBase36Digit_isIdChar dgt (base36Digits_lt n n dgt (List.mem_reverse.mp hmem))

theorem generateDownloadId_chars (randDigits : List Nat) (clock : Nat)
    (hr : ∀ dgt ∈ randDigits, dgt < 36) :
    (∃ rest, (generateDownloadId randDigits clock).data = 'd' :: 'l' :: '_' :: rest) ∧
    ∀ c ∈ (generateDownloadId randDigits clock).data, isIdChar c = true := by
  constructor
  · refine ⟨((randDigits.take 9).map toBase36Digit) ++ (natToBase36 clock).data, ?_⟩
    rw [generateDownloadId, String.data_append, String.data_append, List.append_assoc]
    rfl
  · intro c hc
    rw [generateDownloadId, String.data_append, String.data_append] at hc
    rcases List.mem_append.mp hc with hc | hc
    · rcases List.mem_append.mp hc with hc | hc
      · rw [show ("dl_" : String).data = ['d', 'l', '_'] from rfl] at hc
        simp at hc
        rcases hc with hc | hc | hc <;> subst hc <;> decide
      · rw [show (String.mk ((randDigits.take 9).map toBase36Digit)).data =
            (randDigits.take 9).map toBase36Digit from rfl] at hc
        obtain ⟨dgt, hmem, hEq⟩ := List.mem_map.mp hc
        subst hEq
        exact toBase36Digit_isIdChar dgt (hr dgt (List.take_subset _ _ hmem))
    · exact natToBase36_chars clock c hc

theorem isIdChar_isRouteChar : ∀ c, isIdChar c = true → isRouteChar c = true := by
  intro c h
  rw [isIdChar] at h
  rw [isRouteChar]
  simp only [Bool.or_eq_true, Bool.and_eq_true, decide_eq_true_eq, beq_iff_eq] at h ⊢
  omega

/-! ### Claim theorems -/

/-- C1: a submission whose URL matches a known platform pattern and whose
format and quality fields are present gets, from `POST /api/download` and
before any scheduled extraction callback runs, a non-empty job id together
with a status record in state `queued` at progress `0`, and that record is
persisted under the id in `downloadStatuses`.  The response is built from
the freshly created record while the three `setTimeout` callbacks are still
pending, which is the "returns immediately, does not block on extraction"
contract. -/
theorem submit_returns_queued_job (body : DownloadRequest) (store : Store)
    (randDigits : List Nat) (clock : Nat) (now doneAt : String)
    (h1 : body.url ≠ "") (h2 : body.format ≠ "") (h3 : body.quality ≠ "")
    (h4 : detectPlatform body.url ≠ "Unknown") :
    (workerFetch .POST "/api/download" body store (generateDownloadId randDigits clock)
        now doneAt).1 =
      ⟨200, .downloadCreated (generateDownloadId randDigits clock)
        ⟨generateDownloadId randDigits clock, .queued, 0, none, none, now, none⟩⟩ ∧
    generateDownloadId randDigits clock ≠ "" ∧
    Store.read (submitStore body store (generateDownloadId randDigits clock) now doneAt)
        (generateDownloadId randDigits clock) =
      some ⟨generateDownloadId randDigits clock, .queued, 0, none, none, now, none⟩ := by
  have hs := submit_eval body store (generateDownloadId randDigits clock) now doneAt h1 h2 h3 h4
  refine ⟨by rw [hs], ?_, ?_⟩
  · intro h
    have hlen := congrArg String.length h
    rw [generateDownloadId, String.length_append, String.length_append] at hlen
    rw [show ("dl_" : String).length = 3 from rfl, show ("" : String).length = 0 from rfl] at hlen
    omega
  · unfold submitStore
    rw [hs]
    exact read_cons_self _ _ _

/-- Witness for C1: the spec's scenario submission
`{url: "https://www.youtube.com/watch?v=abc12345678", format: "mp4",
quality: "720p"}` on an empty store. -/
theorem submit_returns_queued_job_witness :
    (workerFetch .POST "/api/download"
        ⟨"https://www.youtube.com/watch?v=abc12345678", "mp4", "720p"⟩ []
        (generateDownloadId [7, 35, 0, 12] 1760000000000)
        "2026-10-11T00:00:00.000Z" "2026-10-11T00:00:03.000Z").1 =
      ⟨200, .downloadCreated (generateDownloadId [7, 35, 0, 12] 1760000000000)
        ⟨generateDownloadId [7, 35, 0, 12] 1760000000000, .queued, 0, none, none,
         "2026-10-11T00:00:00.000Z", none⟩⟩ ∧
    generateDownloadId [7, 35, 0, 12] 1760000000000 ≠ "" ∧
    Store.read (submitStore ⟨"https://www.youtube.com/watch?v=abc12345678", "mp4", "720p"⟩ []
        (generateDownloadId [7, 35, 0, 12] 1760000000000)
        "2026-10-11T00:00:00.000Z" "2026-10-11T00:00:03.000Z")
        (generateDownloadId [7, 35, 0, 12] 1760000000000) =
      some ⟨generateDownloadId [7, 35, 0, 12] 1760000000000, .queued, 0, none, none,
            "2026-10-11T00:00:00.000Z", none⟩ :=
  submit_returns_queued_job _ _ _ _ _ _ (by decide) (by decide) (by decide) (by decide)

/-- C2: along the lifecycle of one submitted job — the store right after
submission, then after each of the scheduled background callbacks fires in
its scheduled order — the `progress` value a status read observes is
monotonically non-decreasing: every background update leaves `progress` at
least its previous value (the observed sequence is 0, 25, 75, 100). -/
theorem job_progress_monotone (body : DownloadRequest) (store : Store)
    (freshId now doneAt : String)
    (h1 : body.url ≠ "") (h2 : body.format ≠ "") (h3 : body.quality ≠ "")
    (h4 : detectPlatform body.url ≠ "Unknown") :
    ∀ k, k + 1 ≤ (submitPending body store freshId now doneAt).length →
      ∃ p q, progressOf (jobTraj body store freshId now doneAt k) freshId = some p ∧
        progressOf (jobTraj body store freshId now doneAt (k + 1)) freshId = some q ∧
        p ≤ q := by
  have hT := jobTraj_read body store freshId now doneAt h1 h2 h3 h4
  have hs := submit_eval body store freshId now doneAt h1 h2 h3 h4
  have hlen : (submitPending body store freshId now doneAt).length = 3 := by
    unfold submitPending
    rw [hs]
    rfl
  intro k hk
  rw [hlen] at hk
  have hk2 : k ≤ 2 := by omega
  interval_cases k
  · exact ⟨0, 25, by simp [progressOf, hT.1], by simp [progressOf, hT.2.1], by omega⟩
  · exact ⟨25, 75, by simp [progressOf, hT.2.1], by simp [progressOf, hT.2.2.1], by omega⟩
  · exact ⟨75, 100, by simp [progressOf, hT.2.2.1], by simp [progressOf, hT.2.2.2], by omega⟩

/-- Witness for C2: the spec's scenario submission, first step. -/
theorem job_progress_monotone_witness :
    ∃ p q, progressOf (jobTraj ⟨"https://www.youtube.com/watch?v=abc12345678", "mp4", "720p"⟩
        [] "dl_w2" "t0" "t3" 0) "dl_w2" = some p ∧
      progressOf (jobTraj ⟨"https://www.youtube.com/watch?v=abc12345678", "mp4", "720p"⟩
        [] "dl_w2" "t0" "t3" 1) "dl_w2" = some q ∧ p ≤ q :=
  job_progress_monotone ⟨"https://www.youtube.com/watch?v=abc12345678", "mp4", "720p"⟩
    [] "dl_w2" "t0" "t3" (by decide) (by decide) (by decide) (by decide) 0 (by decide)

/-- C3: terminal states are absorbing along the job's lifecycle.  If the
status observed for the job after `k` background steps is terminal
(`completed`, `error` or `expired` on the wire), then after any later number
of steps the observed status is unchanged — the schedule contains no
callback that could fire after the completing one, and status reads never
mutate the record, so nothing short of deleting the record changes it
again. -/
theorem terminal_status_absorbing (body : DownloadRequest) (store : Store)
    (freshId now doneAt : String)
    (h1 : body.url ≠ "") (h2 : body.format ≠ "") (h3 : body.quality ≠ "")
    (h4 : detectPlatform body.url ≠ "Unknown") :
    ∀ k j, k ≤ j → ∀ s, statusOf (jobTraj body store freshId now doneAt k) freshId = some s →
      isTerminalName s = true →
      statusOf (jobTraj body store freshId now doneAt j) freshId = some s := by
  have hT := jobTraj_read body store freshId now doneAt h1 h2 h3 h4
  intro k j hkj s hs hterm
  rcases Nat.lt_or_ge k 3 with hk | hk
  · exfalso
    interval_cases k
    · have : s = "queued" := by
        rw [statusOf, hT.1] at hs
        simpa using hs.symm
      subst this
      exact absurd hterm (by decide)
    · have : s = "processing" := by
        rw [statusOf, hT.2.1] at hs
        simpa using hs.symm
      subst this
      exact absurd hterm (by decide)
    · have : s = "processing" := by
        rw [statusOf, hT.2.2.1] at hs
        simpa using hs.symm
      subst this
      exact absurd hterm (by decide)
  · have hj : 3 ≤ j := le_trans hk hkj
    rw [jobTraj_ge3 body store freshId now doneAt h1 h2 h3 h4 k hk] at hs
    rw [jobTraj_ge3 body store freshId now doneAt h1 h2 h3 h4 j hj]
    exact hs

/-- Witness for C3: after the completing callback (step 3) the job of the
scenario submission is `completed`, and it is still `completed` at any
later step (here step 5). -/
theorem terminal_status_absorbing_witness :
    statusOf (jobTraj ⟨"https://www.youtube.com/watch?v=abc12345678", "mp4", "720p"⟩
        [] "dl_w3" "t0" "t3" 5) "dl_w3" = some "completed" :=
  terminal_status_absorbing ⟨"https://www.youtube.com/watch?v=abc12345678", "mp4", "720p"⟩
    [] "dl_w3" "t0" "t3" (by decide) (by decide) (by decide) (by decide) 3 5 (by decide)
    "completed" (by decide) (by decide)

/-- C4 counterexample: the claim says a request with a recognized URL but an
unsupported format or quality is rejected with 400 before any state is
mutated.  The code only checks the three fields for truthiness: a submission
with the spec's scenario URL but format `"exe"` and quality `"brainrot"` —
members of no allow-list — is accepted with 200 and a job record is
created. -/
theorem format_allowlist_counterexample :
    (workerFetch .POST "/api/download"
        ⟨"https://www.youtube.com/watch?v=abc12345678", "exe", "brainrot"⟩ []
        "dl_x" "t0" "t3").1.code = 200 ∧
    Store.read (workerFetch .POST "/api/download"
        ⟨"https://www.youtube.com/watch?v=abc12345678", "exe", "brainrot"⟩ []
        "dl_x" "t0" "t3").2.1 "dl_x" =
      some ⟨"dl_x", .queued, 0, none, none, "t0", none⟩ := by
  decide

/-- C4 as amended: `POST /api/download` fails with 400 and creates no job
record exactly when `url`, `format` or `quality` is empty or the URL
classifies to no known platform; `format` and `quality` are never checked
against an allow-list, so any non-empty values are accepted and a `queued`
record is created. -/
theorem submit_validation_characterization (body : DownloadRequest) (store : Store)
    (freshId now doneAt : String) :
    ((body.url = "" ∨ body.format = "" ∨ body.quality = "" ∨
        detectPlatform body.url = "Unknown") →
      (workerFetch .POST "/api/download" body store freshId now doneAt).1.code = 400 ∧
      (workerFetch .POST "/api/download" body store freshId now doneAt).2.1 = store ∧
      (workerFetch .POST "/api/download" body store freshId now doneAt).2.2 = []) ∧
    (body.url ≠ "" → body.format ≠ "" → body.quality ≠ "" →
      detectPlatform body.url ≠ "Unknown" →
      (workerFetch .POST "/api/download" body store freshId now doneAt).1.code = 200 ∧
      (workerFetch .POST "/api/download" body store freshId now doneAt).2.1 =
        (freshId, ⟨freshId, .queued, 0, none, none, now, none⟩) :: store) := by
  constructor
  · intro h
    unfold workerFetch
    rw [if_neg (by decide : ¬ (Method.POST = Method.OPTIONS))]
    rw [if_neg (by intro hh; exact absurd hh.1 (by decide))]
    rw [if_neg (by intro hh; exact absurd hh.1 (by decide))]
    rw [if_pos ⟨rfl, rfl⟩]
    by_cases hE : body.url = "" ∨ body.format = "" ∨ body.quality = ""
    · rw [if_pos hE]
      exact ⟨rfl, rfl, rfl⟩
    · rw [if_neg hE]
      have hU : detectPlatform body.url = "Unknown" := by
        rcases h with h | h | h | h
        · exact absurd (Or.inl h) hE
        · exact absurd (Or.inr (Or.inl h)) hE
        · exact absurd (Or.inr (Or.inr h)) hE
        · exact h
      rw [if_pos hU]
      exact ⟨rfl, rfl, rfl⟩
  · intro h1 h2 h3 h4
    have hs := submit_eval body store freshId now doneAt h1 h2 h3 h4
    rw [hs]
    exact ⟨rfl, rfl⟩

/-- Witness for the amended C4: the spec's scenario `https://example.com/video`
(unknown platform) is rejected with 400 and no record is created, while the
counterexample above shows acceptance of arbitrary non-empty format and
quality. -/
theorem submit_validation_characterization_witness :
    (workerFetch .POST "/api/download" ⟨"https://example.com/video", "mp4", "720p"⟩ []
        "dl_x" "t0" "t3").1.code = 400 ∧
    (workerFetch .POST "/api/download" ⟨"https://example.com/video", "mp4", "720p"⟩ []
        "dl_x" "t0" "t3").2.1 = [] ∧
    (workerFetch .POST "/api/download" ⟨"https://example.com/video", "mp4", "720p"⟩ []
        "dl_x" "t0" "t3").2.2 = [] :=
  (submit_validation_characterization ⟨"https://example.com/video", "mp4", "720p"⟩ []
    "dl_x" "t0" "t3").1 (Or.inr (Or.inr (Or.inr (by decide))))

/-- C5 counterexample: a job created at `2020-01-01` — far beyond any
retention window by the (ignored) current time — is still reported with its
stored status `queued` on the next status read; it is not reported
`expired`.  The backend's status type does not even contain an `expired`
member, and the read consults no clock. -/
theorem stale_job_not_expired_counterexample :
    (workerFetch .GET "/api/download/dl_old" ⟨"", "", ""⟩
        [("dl_old", ⟨"dl_old", .queued, 0, none, none, "2020-01-01T00:00:00.000Z", none⟩)]
        "dl_f" "2026-10-11T00:00:00.000Z" "2026-10-11T00:00:03.000Z").1 =
      ⟨200, .jobStatus ⟨"dl_old", .queued, 0, none, none, "2020-01-01T00:00:00.000Z", none⟩⟩ ∧
    statusName JobState.queued ≠ "expired" := by
  decide

/-- C5 as amended: a status read returns the stored record unchanged,
whatever the elapsed time since `createdAt` — the handler performs no
expiry check and takes no clock input — and no reachable status string is
`"expired"` (the backend status type lacks that member).  The claim's
"file no longer retrievable" part is moot: the worker serves no
`/api/download/{id}/file` route at all. -/
theorem get_status_reports_stored_status (store : Store) (id : String) (r : DownloadStatus)
    (body : DownloadRequest) (freshId now doneAt : String)
    (hm : routeMatch ("/api/download/" ++ id) = some id)
    (hr : Store.read store id = some r) :
    workerFetch .GET ("/api/download/" ++ id) body store freshId now doneAt =
      (⟨200, .jobStatus r⟩, store, []) ∧
    ∀ js : JobState, statusName js ≠ "expired" := by
  constructor
  · rw [get_status_eval _ _ _ _ _ _ hm, hr]
  · intro js
    cases js <;> decide

/-- Witness for the amended C5. -/
theorem get_status_reports_stored_status_witness :
    workerFetch .GET ("/api/download/" ++ "dl_old") ⟨"", "", ""⟩
        [("dl_old", ⟨"dl_old", .queued, 0, none, none, "2020-01-01T00:00:00.000Z", none⟩)]
        "dl_f" "n" "d" =
      (⟨200, .jobStatus ⟨"dl_old", .queued, 0, none, none, "2020-01-01T00:00:00.000Z", none⟩⟩,
       [("dl_old", ⟨"dl_old", .queued, 0, none, none, "2020-01-01T00:00:00.000Z", none⟩)], []) ∧
    ∀ js : JobState, statusName js ≠ "expired" :=
  get_status_reports_stored_status
    [("dl_old", ⟨"dl_old", .queued, 0, none, none, "2020-01-01T00:00:00.000Z", none⟩)]
    "dl_old" ⟨"dl_old", .queued, 0, none, none, "2020-01-01T00:00:00.000Z", none⟩
    ⟨"", "", ""⟩ "dl_f" "n" "d" (by decide) (by decide)

/-- C6 counterexample: the claim says cleanup on an existing job removes the
record and succeeds.  The worker has no `DELETE` route: deleting an existing
job answers 404 (an error, not a silent success) and the record is still in
the store afterwards. -/
theorem delete_leaves_record_counterexample :
    (workerFetch .DELETE "/api/download/dl_abc" ⟨"", "", ""⟩
        [("dl_abc", ⟨"dl_abc", .completed, 100, some "/files/dl_abc.mp4", none, "t0", some "t3"⟩)]
        "dl_f" "n" "d").1.code = 404 ∧
    Store.read (workerFetch .DELETE "/api/download/dl_abc" ⟨"", "", ""⟩
        [("dl_abc", ⟨"dl_abc", .completed, 100, some "/files/dl_abc.mp4", none, "t0", some "t3"⟩)]
        "dl_f" "n" "d").2.1 "dl_abc" =
      some ⟨"dl_abc", .completed, 100, some "/files/dl_abc.mp4", none, "t0", some "t3"⟩ := by
  decide

/-- C6 as amended: `DELETE /api/download/{id}` is not routed by the worker:
every `DELETE` request — whatever the path and whatever the store — returns
404 `Not Found`, schedules nothing, and leaves the job store unchanged.
Repeated calls therefore behave identically (trivial idempotence), but the
call errors rather than succeeding silently and never removes a record or
artifact. -/
theorem delete_route_always_404 (path : String) (body : DownloadRequest) (store : Store)
    (freshId now doneAt : String) :
    workerFetch .DELETE path body store freshId now doneAt =
      (⟨404, .notFound path⟩, store, []) :=
  workerFetch_delete path body store freshId now doneAt

/-- C7: for a job id with no record in the store, both the status read
`GET /api/download/{id}` and the file fetch `GET /api/download/{id}/file`
answer 404 — the former through the route handler's missing-record branch
(or the router's fall-through when the id fits no route), the latter always
through the router's fall-through since no file route exists — and neither
changes the store nor schedules any work. -/
theorem unknown_id_status_and_file_404 (store : Store) (id : String) (body : DownloadRequest)
    (freshId now doneAt : String) (h : Store.read store id = none) :
    ((workerFetch .GET ("/api/download/" ++ id) body store freshId now doneAt).1.code = 404 ∧
     (workerFetch .GET ("/api/download/" ++ id) body store freshId now doneAt).2.1 = store ∧
     (workerFetch .GET ("/api/download/" ++ id) body store freshId now doneAt).2.2 = []) ∧
    ((workerFetch .GET ("/api/download/" ++ id ++ "/file") body store freshId now
        doneAt).1.code = 404 ∧
     (workerFetch .GET ("/api/download/" ++ id ++ "/file") body store freshId now
        doneAt).2.1 = store ∧
     (workerFetch .GET ("/api/download/" ++ id ++ "/file") body store freshId now
        doneAt).2.2 = []) := by
  constructor
  · rcases routeMatch_append_cases id with hm | hm
    · rw [get_status_eval _ _ _ _ _ _ hm, h]
      exact ⟨rfl, rfl, rfl⟩
    · have hw : workerFetch .GET ("/api/download/" ++ id) body store freshId now doneAt =
          (⟨404, .notFound ("/api/download/" ++ id)⟩, store, []) := by
        unfold workerFetch
        rw [if_neg (by decide : ¬ (Method.GET = Method.OPTIONS))]
        rw [if_neg (by intro hh; exact dlPath_ne_health id hh.1)]
        rw [if_neg (by intro hh; exact absurd hh.2 (by decide))]
        rw [if_neg (by intro hh; exact absurd hh.2 (by decide))]
        rw [hm]
        rw [if_neg (by intro hh; exact dlPath_ne_platforms id hh.1)]
      rw [hw]
      exact ⟨rfl, rfl, rfl⟩
  · have hassoc : "/api/download/" ++ id ++ "/file" = "/api/download/" ++ (id ++ "/file") := by
      rw [String.ext_iff]
      simp [String.data_append, List.append_assoc]
    have hm := routeMatch_file_none id
    have hw : workerFetch .GET ("/api/download/" ++ id ++ "/file") body store freshId now
        doneAt = (⟨404, .notFound ("/api/download/" ++ id ++ "/file")⟩, store, []) := by
      unfold workerFetch
      rw [if_neg (by decide : ¬ (Method.GET = Method.OPTIONS))]
      rw [if_neg (by intro hh; rw [hassoc] at hh; exact dlPath_ne_health _ hh.1)]
      rw [if_neg (by intro hh; exact absurd hh.2 (by decide))]
      rw [if_neg (by intro hh; exact absurd hh.2 (by decide))]
      rw [hm]
      rw [if_neg (by intro hh; rw [hassoc] at hh; exact dlPath_ne_platforms _ hh.1)]
    rw [hw]
    exact ⟨rfl, rfl, rfl⟩

/-- Witness for C7: the never-issued id `ghost` against an empty store. -/
theorem unknown_id_status_and_file_404_witness :
    ((workerFetch .GET ("/api/download/" ++ "ghost") ⟨"", "", ""⟩ [] "dl_f" "n"
        "d").1.code = 404 ∧
     (workerFetch .GET ("/api/download/" ++ "ghost") ⟨"", "", ""⟩ [] "dl_f" "n"
        "d").2.1 = [] ∧
     (workerFetch .GET ("/api/download/" ++ "ghost") ⟨"", "", ""⟩ [] "dl_f" "n"
        "d").2.2 = []) ∧
    ((workerFetch .GET ("/api/download/" ++ "ghost" ++ "/file") ⟨"", "", ""⟩ [] "dl_f" "n"
        "d").1.code = 404 ∧
     (workerFetch .GET ("/api/download/" ++ "ghost" ++ "/file") ⟨"", "", ""⟩ [] "dl_f" "n"
        "d").2.1 = [] ∧
     (workerFetch .GET ("/api/download/" ++ "ghost" ++ "/file") ⟨"", "", ""⟩ [] "dl_f" "n"
        "d").2.2 = []) :=
  unknown_id_status_and_file_404 [] "ghost" ⟨"", "", ""⟩ "dl_f" "n" "d" rfl

/-- C9: every id produced by `generateDownloadId` starts with `dl_` and
consists only of characters in `[a-z0-9_]` (the `dl_` prefix plus base-36
digits), hence it is matched by the status route's pattern
`^/api/download/([a-zA-Z0-9_]+)$` with the id itself captured; consequently
an immediate `GET /api/download/{id}` after a successful submission reaches
the status handler and finds the freshly persisted `queued` record. -/
theorem download_id_route_roundtrip (body : DownloadRequest) (store : Store)
    (randDigits : List Nat) (clock : Nat) (now doneAt : String)
    (hr : ∀ dgt ∈ randDigits, dgt < 36)
    (h1 : body.url ≠ "") (h2 : body.format ≠ "") (h3 : body.quality ≠ "")
    (h4 : detectPlatform body.url ≠ "Unknown") :
    (∃ rest, (generateDownloadId randDigits clock).data = 'd' :: 'l' :: '_' :: rest) ∧
    (∀ c ∈ (generateDownloadId randDigits clock).data, isIdChar c = true) ∧
    routeMatch ("/api/download/" ++ generateDownloadId randDigits clock) =
      some (generateDownloadId randDigits clock) ∧
    (workerFetch .GET ("/api/download/" ++ generateDownloadId randDigits clock) body
        (submitStore body store (generateDownloadId randDigits clock) now doneAt)
        (generateDownloadId randDigits clock) now doneAt).1 =
      ⟨200, .jobStatus ⟨generateDownloadId randDigits clock, .queued, 0, none, none, now,
        none⟩⟩ := by
  obtain ⟨hpre, hchars⟩ := generateDownloadId_chars randDigits clock hr
  have hne : (generateDownloadId randDigits clock).data ≠ [] := by
    obtain ⟨rest, hq⟩ := hpre
    rw [hq]
    simp
  have hall : (generateDownloadId randDigits clock).data.all isRouteChar = true := by
    rw [List.all_eq_true]
    intro c hcm
    exact isIdChar_isRouteChar c (hchars c hcm)
  have hrm := routeMatch_append _ hne hall
  refine ⟨hpre, hchars, hrm, ?_⟩
  have hs := submit_eval body store (generateDownloadId randDigits clock) now doneAt h1 h2 h3 h4
  rw [get_status_eval _ _ _ _ _ _ hrm]
  unfold submitStore
  rw [hs]
  rw [read_cons_self]

/-- Witness for C9: a concrete random-digit list and clock, with the spec's
scenario submission. -/
theorem download_id_route_roundtrip_witness :
    (∃ rest, (generateDownloadId [1, 2, 3, 35, 10, 0, 9, 8, 7, 22] 1760000000000).data =
      'd' :: 'l' :: '_' :: rest) ∧
    (∀ c ∈ (generateDownloadId [1, 2, 3, 35, 10, 0, 9, 8, 7, 22] 1760000000000).data,
      isIdChar c = true) ∧
    routeMatch ("/api/download/" ++ generateDownloadId [1, 2, 3, 35, 10, 0, 9, 8, 7, 22]
        1760000000000) =
      some (generateDownloadId [1, 2, 3, 35, 10, 0, 9, 8, 7, 22] 1760000000000) ∧
    (workerFetch .GET ("/api/download/" ++ generateDownloadId [1, 2, 3, 35, 10, 0, 9, 8, 7, 22]
          1760000000000)
        ⟨"https://www.youtube.com/watch?v=abc12345678", "mp4", "720p"⟩
        (submitStore ⟨"https://www.youtube.com/watch?v=abc12345678", "mp4", "720p"⟩ []
          (generateDownloadId [1, 2, 3, 35, 10, 0, 9, 8, 7, 22] 1760000000000) "t0" "t3")
        (generateDownloadId [1, 2, 3, 35, 10, 0, 9, 8, 7, 22] 1760000000000) "t0" "t3").1 =
      ⟨200, .jobStatus ⟨generateDownloadId [1, 2, 3, 35, 10, 0, 9, 8, 7, 22] 1760000000000,
        .queued, 0, none, none, "t0", none⟩⟩ :=
  download_id_route_roundtrip ⟨"https://www.youtube.com/watch?v=abc12345678", "mp4", "720p"⟩
    [] [1, 2, 3, 35, 10, 0, 9, 8, 7, 22] 1760000000000 "t0" "t3" (by decide) (by decide)
    (by decide) (by decide) (by decide)

/-! ### Poller lemmas -/

theorem pollAux_unfold (fetch : Nat → Except String ClientStatus)
    (statuses : Nat → ClientStatus) (hf : ∀ i, fetch i = .ok (statuses i))
    (maxAttempts a : Nat) :
    pollAux fetch maxAttempts a =
      if isTerminalC (statuses a) = true then ([statuses a], .resolved (statuses a))
      else if maxAttempts ≤ a + 1 then ([statuses a], .timedOut)
      else (statuses a :: (pollAux fetch maxAttempts (a + 1)).1,
            (pollAux fetch maxAttempts (a + 1)).2) := by
  rw [pollAux, hf a]
  show (if isTerminalC (statuses a) = true
        then ([statuses a], PollResult.resolved (statuses a))
        else if _h : maxAttempts ≤ a + 1 then ([statuses a], PollResult.timedOut)
        else
          let r := pollAux fetch maxAttempts (a + 1)
          (statuses a :: r.1, r.2)) = _
  by_cases ht : isTerminalC (statuses a) = true
  · rw [if_pos ht, if_pos ht]
  · rw [if_neg ht, if_neg ht]
    by_cases hm : maxAttempts ≤ a + 1
    · rw [dif_pos hm, if_pos hm]
    · rw [dif_neg hm, if_neg hm]

theorem pollAux_trace (fetch : Nat → Except String ClientStatus)
    (statuses : Nat → ClientStatus) (hf : ∀ i, fetch i = .ok (statuses i))
    (maxAttempts : Nat) :
    ∀ n a, maxAttempts ≤ a + n + 1 →
      ∀ k, k < (pollAux fetch maxAttempts a).1.length →
        (pollAux fetch maxAttempts a).1[k]? = some (statuses (a + k)) := by
  intro n
  induction n with
  | zero =>
    intro a ha k hk
    rw [pollAux_unfold fetch statuses hf] at hk ⊢
    by_cases ht : isTerminalC (statuses a) = true
    · rw [if_pos ht] at hk ⊢
      simp at hk
      subst hk
      simp
    · rw [if_neg ht, if_pos (by omega : maxAttempts ≤ a + 1)] at hk ⊢
      simp at hk
      subst hk
      simp
  | succ n ih =>
    intro a ha k hk
    rw [pollAux_unfold fetch statuses hf] at hk ⊢
    by_cases ht : isTerminalC (statuses a) = true
    · rw [if_pos ht] at hk ⊢
      simp at hk
      subst hk
      simp
    · rw [if_neg ht] at hk ⊢
      by_cases hm : maxAttempts ≤ a + 1
      · rw [if_pos hm] at hk ⊢
        simp at hk
        subst hk
        simp
      · rw [if_neg hm] at hk ⊢
        cases k with
        | zero => simp
        | succ k =>
          simp only [List.length_cons] at hk
          have hk2 : k < (pollAux fetch maxAttempts (a + 1)).1.length := by omega
          have hidx : a + (k + 1) = a + 1 + k := by omega
          rw [hidx, List.getElem?_cons_succ]
          exact ih (a + 1) (by omega) k hk2

theorem pollAux_no_terminal (fetch : Nat → Except String ClientStatus)
    (statuses : Nat → ClientStatus) (hf : ∀ i, fetch i = .ok (statuses i))
    (maxAttempts : Nat) :
    ∀ n a, maxAttempts ≤ a + n + 1 →
      (∀ i, a ≤ i → i + 1 ≤ max maxAttempts (a + 1) → isTerminalC (statuses i) = false) →
      (pollAux fetch maxAttempts a).2 = .timedOut ∧
      (pollAux fetch maxAttempts a).1.length = max maxAttempts (a + 1) - a := by
  intro n
  induction n with
  | zero =>
    intro a ha hnt
    rw [pollAux_unfold fetch statuses hf]
    rw [if_neg (by simp [hnt a le_rfl (by omega)])]
    rw [if_pos (by omega : maxAttempts ≤ a + 1)]
    refine ⟨rfl, ?_⟩
    simp
    omega
  | succ n ih =>
    intro a ha hnt
    rw [pollAux_unfold fetch statuses hf]
    rw [if_neg (by simp [hnt a le_rfl (by omega)])]
    by_cases hm : maxAttempts ≤ a + 1
    · rw [if_pos hm]
      refine ⟨rfl, ?_⟩
      simp
      omega
    · rw [if_neg hm]
      have hrec := ih (a + 1) (by omega)
        (fun i hi hib => hnt i (by omega) (by omega))
      refine ⟨hrec.1, ?_⟩
      simp only [List.length_cons]
      rw [hrec.2]
      omega

theorem pollAux_first_terminal (fetch : Nat → Except String ClientStatus)
    (statuses : Nat → ClientStatus) (hf : ∀ i, fetch i = .ok (statuses i))
    (maxAttempts : Nat) :
    ∀ n a i, maxAttempts ≤ a + n + 1 → a ≤ i → i + 1 ≤ max maxAttempts (a + 1) →
      isTerminalC (statuses i) = true →
      (∀ j, a ≤ j → j < i → isTerminalC (statuses j) = false) →
      (pollAux fetch maxAttempts a).2 = .resolved (statuses i) ∧
      (pollAux fetch maxAttempts a).1.length = i + 1 - a := by
  intro n
  induction n with
  | zero =>
    intro a i ha hai hib ht hfirst
    have heq : i = a := by omega
    subst heq
    rw [pollAux_unfold fetch statuses hf, if_pos ht]
    refine ⟨rfl, ?_⟩
    simp
  | succ n ih =>
    intro a i ha hai hib ht hfirst
    rcases Nat.eq_or_lt_of_le hai with heq | hlt
    · subst heq
      rw [pollAux_unfold fetch statuses hf, if_pos ht]
      refine ⟨rfl, ?_⟩
      simp
    · have hta : isTerminalC (statuses a) = false := hfirst a le_rfl hlt
      rw [pollAux_unfold fetch statuses hf]
      rw [if_neg (by simp [hta])]
      have hm : ¬ maxAttempts ≤ a + 1 := by omega
      rw [if_neg hm]
      have hrec := ih (a + 1) i (by omega) (by omega) (by omega) ht
        (fun j hj hji => hfirst j (by omega) hji)
      refine ⟨hrec.1, ?_⟩
      simp only [List.length_cons]
      rw [hrec.2]
      omega

/-! ### Claim theorems for the client helpers -/

/-- C8: the poller surfaces every status it reads to `onUpdate` in order;
if no terminal status appears within the attempt budget (`maxAttempts`
reads, with at least one read even for a zero budget) it rejects with the
timeout error after exactly that many reads; and at the first read whose
status is terminal it resolves with that status without polling again, so
the number of reads is exactly the index of that first terminal status plus
one.  Reads are modelled by `fetch`; here every read succeeds (a throwing
read is the separate `failed` rejection path the claim does not touch). -/
theorem poll_download_status_contract (fetch : Nat → Except String ClientStatus)
    (statuses : Nat → ClientStatus) (intervalMs maxAttempts : Nat)
    (hf : ∀ i, fetch i = .ok (statuses i)) :
    (∀ k, k < (pollDownloadStatus fetch intervalMs maxAttempts).1.length →
       (pollDownloadStatus fetch intervalMs maxAttempts).1[k]? = some (statuses k)) ∧
    ((∀ i, i + 1 ≤ max maxAttempts 1 → isTerminalC (statuses i) = false) →
       (pollDownloadStatus fetch intervalMs maxAttempts).2 = .timedOut ∧
       (pollDownloadStatus fetch intervalMs maxAttempts).1.length = max maxAttempts 1) ∧
    (∀ i, i + 1 ≤ max maxAttempts 1 → isTerminalC (statuses i) = true →
       (∀ j, j < i → isTerminalC (statuses j) = false) →
       (pollDownloadStatus fetch intervalMs maxAttempts).2 = .resolved (statuses i) ∧
       (pollDownloadStatus fetch intervalMs maxAttempts).1.length = i + 1) := by
  unfold pollDownloadStatus
  refine ⟨?_, ?_, ?_⟩
  · intro k hk
    have h := pollAux_trace fetch statuses hf maxAttempts maxAttempts 0 (by omega) k hk
    simpa using h
  · intro hnt
    have h := pollAux_no_terminal fetch statuses hf maxAttempts maxAttempts 0 (by omega)
      (fun i _ hib => hnt i (by omega))
    simpa using h
  · intro i hi ht hfirst
    have h := pollAux_first_terminal fetch statuses hf maxAttempts maxAttempts 0 i
      (by omega) (Nat.zero_le i) (by omega) ht (fun j _ hji => hfirst j hji)
    simpa using h

/-- Witness for C8: two successful reads, `processing` then `completed`,
against an attempt budget of 5: the poller resolves with the completed
status after exactly two reads. -/
theorem poll_download_status_contract_witness :
    (pollDownloadStatus (fun i => Except.ok (if i = 0 then
        (⟨"dl_w8", "processing", 50, none, none, none, none, "t0", none, none⟩ : ClientStatus)
      else ⟨"dl_w8", "completed", 100, none, none, none, none, "t0", some "t3", none⟩))
      2000 5).2 =
      .resolved ⟨"dl_w8", "completed", 100, none, none, none, none, "t0", some "t3", none⟩ ∧
    (pollDownloadStatus (fun i => Except.ok (if i = 0 then
        (⟨"dl_w8", "processing", 50, none, none, none, none, "t0", none, none⟩ : ClientStatus)
      else ⟨"dl_w8", "completed", 100, none, none, none, none, "t0", some "t3", none⟩))
      2000 5).1.length = 2 := by
  have h := (poll_download_status_contract
    (fun i => Except.ok (if i = 0 then
        (⟨"dl_w8", "processing", 50, none, none, none, none, "t0", none, none⟩ : ClientStatus)
      else ⟨"dl_w8", "completed", 100, none, none, none, none, "t0", some "t3", none⟩))
    (fun i => if i = 0 then
        (⟨"dl_w8", "processing", 50, none, none, none, none, "t0", none, none⟩ : ClientStatus)
      else ⟨"dl_w8", "completed", 100, none, none, none, none, "t0", some "t3", none⟩)
    2000 5 (fun i => rfl)).2.2 1 (by decide) (by decide) (by decide)
  simpa using h

/-- C10: `isValidVideoUrl` is a total boolean function — for every parsing
oracle (standing for the `URL` constructor) and every input string it
returns a boolean — and whenever the URL fails to parse (the constructor
throws, i.e. the oracle returns `none`) the `catch` branch returns `false`
instead of propagating the exception. -/
theorem isValidVideoUrl_total (parseHost : String → Option String) (url : String) :
    (isValidVideoUrl parseHost url = true ∨ isValidVideoUrl parseHost url = false) ∧
    (parseHost url = none → isValidVideoUrl parseHost url = false) := by
  constructor
  · cases h : isValidVideoUrl parseHost url
    · exact Or.inr rfl
    · exact Or.inl rfl
  · intro h
    rw [isValidVideoUrl, h]

/-- Witness for C10: an oracle that rejects everything (as the `URL`
constructor does on `"not-a-url"`) makes `isValidVideoUrl` return
`false`. -/
theorem isValidVideoUrl_total_witness :
    isValidVideoUrl (fun _ => none) "not-a-url" = false :=
  (isValidVideoUrl_total (fun _ => none) "not-a-url").2 rfl

end VideoVault
